import Mathlib

/-!
Shallow embedding of the `propietary-search` repository:
`src/data_loader/csv_handler.py` (class `CSVHandler`) and
`src/webscraper/search.py` (class `CompanySearcher`).

Tables are modelled as a header (list of column names) together with rows of
string-or-null cells, matching the polars `DataFrame` of string columns that
the pipeline manipulates.  Exceptions are modelled with `Except`/`Option`.
Character-level string operations (strip, upper/lower case, digit scanning)
are modelled over ASCII, which covers all constants of the source.
-/

/-- ASCII whitespace stripped by `str.strip_chars` (space, tab, LF, CR, VT, FF). -/
def wsChars : List Char := [' ', '\t', '\n', '\r', '\x0b', '\x0c']

/-- Whitespace test used by the strip model. -/
def isWs (c : Char) : Bool := wsChars.contains c

/-- The ten decimal digit characters. -/
def digitChars : List Char := ['0', '1', '2', '3', '4', '5', '6', '7', '8', '9']

/-- Digit test: model of the regex character class of a digit. -/
def isDigitChar (c : Char) : Bool := digitChars.contains c

/-- ASCII lowercase/uppercase letter pairs, used to model `str.to_uppercase`
    and `str.lower`. -/
def casePairs : List (Char × Char) :=
  [('a', 'A'), ('b', 'B'), ('c', 'C'), ('d', 'D'), ('e', 'E'), ('f', 'F'),
   ('g', 'G'), ('h', 'H'), ('i', 'I'), ('j', 'J'), ('k', 'K'), ('l', 'L'),
   ('m', 'M'), ('n', 'N'), ('o', 'O'), ('p', 'P'), ('q', 'Q'), ('r', 'R'),
   ('s', 'S'), ('t', 'T'), ('u', 'U'), ('v', 'V'), ('w', 'W'), ('x', 'X'),
   ('y', 'Y'), ('z', 'Z')]

/-- Uppercase one character (ASCII). -/
def upChar (c : Char) : Char :=
  match casePairs.find? (fun p => p.1 == c) with
  | some p => p.2
  | none => c

/-- Lowercase one character (ASCII). -/
def lowChar (c : Char) : Char :=
  match casePairs.find? (fun p => p.2 == c) with
  | some p => p.1
  | none => c

/-- Model of polars `str.to_uppercase`. -/
def upStr (s : String) : String := String.mk (s.toList.map upChar)

/-- Model of Python `str.lower`. -/
def lowerStr (s : String) : String := String.mk (s.toList.map lowChar)

/-- Strip leading and trailing whitespace from a character list. -/
def stripList (l : List Char) : List Char :=
  ((l.dropWhile isWs).reverse.dropWhile isWs).reverse

/-- Model of polars `str.strip_chars` (and Rust `str::trim`). -/
def strip (s : String) : String := String.mk (stripList s.toList)

/-- `needle` is a prefix of `hay`. -/
def listStartsWith : List Char → List Char → Bool
  | _, [] => true
  | [], _ :: _ => false
  | c :: cs, d :: ds => c == d && listStartsWith cs ds

/-- `needle` occurs contiguously somewhere in `hay`
    (model of the Python `in` operator on strings). -/
def hasSub (hay needle : List Char) : Bool :=
  match hay with
  | [] => listStartsWith [] needle
  | c :: t => listStartsWith (c :: t) needle || hasSub t needle

/-- Python `needle in hay` on strings. -/
def strContains (hay needle : String) : Bool := hasSub hay.toList needle.toList

/-! ## CompanySearcher (`src/webscraper/search.py`) -/

/-- The fixed blocklist `CompanySearcher.excluded_domains`. -/
def excluded_domains : List String :=
  ["linkedin.com", "facebook.com", "twitter.com", "instagram.com", "bloomberg.com"]

/-- Characters allowed in a URL scheme after the first one
    (`scheme_chars` of `urllib.parse`). -/
def isSchemeTailChar (c : Char) : Bool :=
  c.isAlpha || isDigitChar c || c == '+' || c == '-' || c == '.'

/-- Scan the remainder of a candidate scheme: succeeds at the first colon,
    returning what follows it. -/
def schemeScanCont : List Char → Option (List Char)
  | [] => none
  | c :: rest =>
    if c == ':' then some rest
    else if isSchemeTailChar c then schemeScanCont rest else none

/-- Recognise `scheme:` at the front of a URL (at least one scheme character
    before the colon, as in `urllib.parse.urlsplit`). -/
def schemeScan : List Char → Option (List Char)
  | [] => none
  | c :: rest => if isSchemeTailChar c then schemeScanCont rest else none

/-- Drop a leading `scheme:` if present, otherwise leave the URL unchanged. -/
def dropScheme (l : List Char) : List Char := (schemeScan l).getD l

/-- The netloc component: present only after a leading `//`, extending to the
    next `/`, `?` or `#`. -/
def netlocChars (l : List Char) : List Char :=
  match l with
  | '/' :: '/' :: rest => rest.takeWhile (fun c => !(c == '/' || c == '?' || c == '#'))
  | _ => []

/-- Model of `urllib.parse.urlparse(url).netloc`; `none` models the
    `ValueError` urlparse raises on a netloc with unbalanced square brackets.
    Note that ordinary non-URL text parses successfully with an empty netloc. -/
def urlparseNetloc (url : String) : Option String :=
  let nl := netlocChars (dropScheme url.toList)
  if (nl.contains '[' && !(nl.contains ']')) || (nl.contains ']' && !(nl.contains '[')) then
    none
  else
    some (String.mk nl)

/-- `CompanySearcher._is_valid_domain`: lowercase the parsed netloc and reject
    it when any excluded domain occurs in it as a substring; a parse error
    (the `except` branch) yields `false`. -/
def is_valid_domain (url : String) : Bool :=
  match urlparseNetloc url with
  | none => false
  | some nl => !(excluded_domains.any (fun d => strContains (lowerStr nl) d))

/-- One entry of the `organic` array of a Serper response; `link` is its
    optional `"link"` field. -/
structure OrganicResult where
  link : Option String
deriving DecidableEq

/-- The observable part of the HTTP response to the single search request. -/
structure SerperResponse where
  status_code : Nat
  organic : List OrganicResult
deriving DecidableEq

/-- The result-scanning loop of `search_company`: first entry whose link is
    present, non-empty (truthy) and passes the domain filter. -/
def firstValidLink : List OrganicResult → Option String
  | [] => none
  | r :: rest =>
    match r.link with
    | some l => if l != "" && is_valid_domain l then some l else firstValidLink rest
    | none => firstValidLink rest

/-- `CompanySearcher.search_company`, with the network exchange abstracted as
    the received response. -/
def search_company (resp : SerperResponse) : Option String :=
  if resp.status_code != 200 then none else firstValidLink resp.organic

/-- A result qualifies when its link field is present, non-empty and passes
    `is_valid_domain` (used to state the specification of the scanning loop). -/
def linkQualifies (r : OrganicResult) : Bool :=
  match r.link with
  | some l => l != "" && is_valid_domain l
  | none => false

/-! ## CSVHandler (`src/data_loader/csv_handler.py`) -/

/-- An in-memory table: a header of column names and rows of
    string-or-null cells (a polars `DataFrame` of string columns). -/
structure Table where
  cols : List String
  rows : List (List (Option String))
deriving DecidableEq

/-- The errors raised by the loading pipeline: `FileNotFoundError`,
    `ValueError` for a wrong extension, `CSVValidationError` carrying either
    the missing-column list or the per-field null counts, polars
    `ColumnNotFoundError`, and the `ValueError` of the not-loaded state. -/
inductive LoadError where
  | notFound
  | formatError
  | schemaError (missing_columns : List String)
  | contentError (null_fields : List (String × Nat))
  | columnNotFound
  | stateError
deriving DecidableEq

/-- Boolean success test on `Except`. -/
def exceptIsOk {ε α : Type} : Except ε α → Bool
  | .ok _ => true
  | .error _ => false

deriving instance DecidableEq for Except

/-- `CSVHandler.REQUIRED_COLUMNS`. -/
def REQUIRED_COLUMNS : List String :=
  ["Company Name", "Parent Company Name", "Executive First Name",
   "Executive Last Name", "Address", "City", "State", "ZIP Code",
   "Legal Name", "Record Type"]

/-- The five required non-null fields of `validate_data_types`. -/
def required_non_null : List String :=
  ["Company Name", "Address", "City", "State", "ZIP Code"]

/-- The existence and extension probes of the handler's path
    (`Path.exists()` and `Path.suffix`). -/
structure PathInfo where
  pathExists : Bool
  suffix : String
deriving DecidableEq

/-- `CSVHandler.validate_file_exists`: existence first, then the
    case-insensitive `.csv` extension check. -/
def validate_file_exists (p : PathInfo) : Except LoadError Unit :=
  if !p.pathExists then .error .notFound
  else if !(lowerStr p.suffix == ".csv") then .error .formatError
  else .ok ()

/-- The `missing_columns` set of `validate_columns`: required columns absent
    from the table's header. -/
def missing_columns_of (t : Table) : List String :=
  REQUIRED_COLUMNS.filter (fun c => !(t.cols.contains c))

/-- `CSVHandler.validate_columns`: raises listing every missing required
    column when any is missing. -/
def validate_columns (t : Table) : Except LoadError Unit :=
  if missing_columns_of t = [] then .ok ()
  else .error (.schemaError (missing_columns_of t))

/-- The column of `t` named `c` (first occurrence), `none` when absent
    (polars raises `ColumnNotFoundError` then). -/
def getCol (t : Table) (c : String) : Option (List (Option String)) :=
  match t.cols.findIdx? (fun x => x == c) with
  | some i => some (t.rows.map (fun r => r.getD i none))
  | none => none

/-- `pl.col(c).is_null().sum()`: nulls in column `c` (0 for an absent column;
    the pipeline only evaluates it on present columns). -/
def nullCountOf (t : Table) (c : String) : Nat :=
  match getCol t c with
  | some col => (col.filter (fun v => v.isNone)).length
  | none => 0

/-- Model of the anchored regex of `validate_data_types`:
    exactly 5 digits optionally followed by a hyphen and 4 digits. -/
def zipFormatOk (s : String) : Bool :=
  let cs := s.toList
  (cs.length == 5 && cs.all isDigitChar) ||
    (cs.length == 10 && ((cs.take 5).all isDigitChar &&
      (cs.getD 5 ' ' == '-' && (cs.drop 6).all isDigitChar)))

/-- Rows whose ZIP value is present but fails the format regex (the count the
    handler logs as a warning); a null predicate row is dropped by `filter`. -/
def invalidZipCount (t : Table) : Nat :=
  match getCol t "ZIP Code" with
  | some col =>
    (col.filter (fun v =>
      match v with
      | some s => !(zipFormatOk s)
      | none => false)).length
  | none => 0

/-- The `null_fields` list of `validate_data_types`: every required field
    paired with its null count, keeping the fields with at least one null. -/
def null_fields_of (t : Table) : List (String × Nat) :=
  (required_non_null.map (fun c => (c, nullCountOf t c))).filter (fun p => 0 < p.2)

/-- `CSVHandler.validate_data_types`: raises `CSVValidationError` enumerating
    every required field having nulls with its count; otherwise only counts
    badly formatted ZIP codes for the warning log (returned here so that the
    side effect is observable). -/
def validate_data_types (t : Table) : Except LoadError Nat :=
  if _h : ∀ c ∈ required_non_null, c ∈ t.cols then
    if null_fields_of t = [] then .ok (invalidZipCount t)
    else .error (.contentError (null_fields_of t))
  else .error .columnNotFound

/-- First pass of `clean_data`: strip one cell, turning a value that strips to
    the empty string into null. -/
def stripCell : Option String → Option String
  | none => none
  | some s => if strip s = "" then none else some (strip s)

/-- Apply `f` to the cells of the column named `name`
    (polars `with_columns` on `pl.col name`). -/
def applyCol (name : String) (f : Option String → Option String) (t : Table) : Table :=
  ⟨t.cols, t.rows.map (fun r =>
    List.zipWith (fun c v => if c = name then f v else v) t.cols r)⟩

/-- First pass of `clean_data` over the whole table (every column of the
    modelled table is a string column). -/
def stripPass (t : Table) : Table :=
  ⟨t.cols, t.rows.map (fun r => r.map stripCell)⟩

/-- Five consecutive digits starting at the head of `l`, if any. -/
def fiveDigitsAt (l : List Char) : Option (List Char) :=
  let d := l.take 5
  if d.length == 5 && d.all isDigitChar then some d else none

/-- Leftmost run of five consecutive digits (regex search for `(\d{5})`). -/
def extract5List : List Char → Option (List Char)
  | [] => none
  | c :: rest =>
    match fiveDigitsAt (c :: rest) with
    | some d => some d
    | none => extract5List rest

/-- Model of `str.extract(r'(\d{5})', 1)` on one value. -/
def extract5 (s : String) : Option String := (extract5List s.toList).map String.mk

/-- `CSVHandler.clean_data`: strip all string cells mapping empties to null,
    then uppercase `State` and re-derive `ZIP Code`; `with_columns` on an
    absent column raises (polars `ColumnNotFoundError`). -/
def clean_data (t : Table) : Except LoadError Table :=
  if "State" ∈ t.cols then
    if "ZIP Code" ∈ t.cols then
      .ok (applyCol "ZIP Code" (fun v => v.bind extract5)
            (applyCol "State" (fun v => v.map upStr) (stripPass t)))
    else .error .columnNotFound
  else .error .columnNotFound

/-- The per-cell effect of `clean_data` (both passes composed), by column name. -/
def cleanedCell (c : String) (v : Option String) : Option String :=
  if c = "State" then (stripCell v).map upStr
  else if c = "ZIP Code" then (stripCell v).bind extract5
  else stripCell v

/-- The table-processing part of `read_and_validate`, after the file has been
    read: validate structure, validate content, clean. -/
def read_and_validate_table (t : Table) : Except LoadError Table :=
  match validate_columns t with
  | .error e => .error e
  | .ok _ =>
    match validate_data_types t with
    | .error e => .error e
    | .ok _ => clean_data t

/-- The mutable state of a `CSVHandler`: its `data` attribute. -/
structure HandlerState where
  data : Option Table
deriving DecidableEq

/-- `CSVHandler.read_and_validate`: the path probes, then the table pipeline
    on the file's parsed content; only a fully successful run assigns
    `self.data`, and an exception leaves the previous state in place while
    propagating. -/
def read_and_validate (st : HandlerState) (src : PathInfo) (content : Table) :
    HandlerState × Except LoadError Table :=
  match validate_file_exists src with
  | .error e => (st, .error e)
  | .ok _ =>
    match read_and_validate_table content with
    | .error e => (st, .error e)
    | .ok c => (⟨some c⟩, .ok c)

/-- The record dataclass `CompanyRecord`; every field holds the
    string-or-null cell it was built from. -/
structure CompanyRecord where
  company_name : Option String
  parent_company_name : Option String
  executive_first_name : Option String
  executive_last_name : Option String
  address : Option String
  city : Option String
  state : Option String
  zip_code : Option String
  legal_name : Option String
  record_type : Option String
deriving DecidableEq

/-- Dictionary access `row[name]` of `iter_rows(named=True)`: `none` models
    the `KeyError` on a column absent from the table. -/
def rowGet (cols : List String) (r : List (Option String)) (name : String) :
    Option (Option String) :=
  (cols.findIdx? (fun x => x == name)).map (fun i => r.getD i none)

/-- Building one `CompanyRecord` from a row; `none` models the per-row
    exception that makes `get_company_records` skip the row. -/
def rowToRecord (cols : List String) (r : List (Option String)) : Option CompanyRecord := do
  let cn ← rowGet cols r "Company Name"
  let pcn ← rowGet cols r "Parent Company Name"
  let efn ← rowGet cols r "Executive First Name"
  let eln ← rowGet cols r "Executive Last Name"
  let ad ← rowGet cols r "Address"
  let ci ← rowGet cols r "City"
  let stv ← rowGet cols r "State"
  let zp ← rowGet cols r "ZIP Code"
  let ln ← rowGet cols r "Legal Name"
  let rt ← rowGet cols r "Record Type"
  pure ⟨cn, pcn, efn, eln, ad, ci, stv, zp, ln, rt⟩

/-- `CSVHandler.get_company_records`: `ValueError` when `data` is `None`,
    otherwise one record per convertible row, failing rows skipped. -/
def get_company_records (st : HandlerState) : Except LoadError (List CompanyRecord) :=
  match st.data with
  | none => .error .stateError
  | some t => .ok (t.rows.filterMap (rowToRecord t.cols))

/-- `CSVHandler.save_processed_data`: `ValueError` when `data` is `None`,
    otherwise `write_csv` of the stored table, modelled as the emitted header
    row (the stored table's column names) paired with its data rows. -/
def save_processed_data (st : HandlerState) :
    Except LoadError (List String × List (List (Option String))) :=
  match st.data with
  | none => .error .stateError
  | some t => .ok (t.cols, t.rows)

/-! ## Concrete inputs used by counterexamples and witnesses -/

/-- The required columns in source-file order. -/
def colOrder : List String :=
  ["Company Name", "Parent Company Name", "Executive First Name",
   "Executive Last Name", "Address", "City", "State", "ZIP Code",
   "Legal Name", "Record Type"]

/-- A well-formed data row. -/
def sampleRow : List (Option String) :=
  [some "Tech Corp", some "Parent Corp", some "John", some "Doe",
   some "1 Main St", some "Springfield", some "ca", some "94105-1234",
   some "TC LLC", some "HQ"]

/-- A valid one-row table. -/
def sampleTable : Table := ⟨colOrder, [sampleRow]⟩

/-- The valid table extended with an extra, non-required column. -/
def extraTable : Table := ⟨colOrder ++ ["Extra"], [sampleRow ++ [some "x"]]⟩

/-- A table whose ZIP value is non-null but contains no run of five digits. -/
def badZipTable : Table :=
  ⟨colOrder,
   [[some "Tech Corp", some "Parent Corp", some "John", some "Doe",
     some "1 Main St", some "Springfield", some "CA", some "ABC",
     some "TC LLC", some "HQ"]]⟩

/-- The table `clean_data` produces from `sampleTable`. -/
def sampleCleaned : Table :=
  ⟨colOrder,
   [[some "Tech Corp", some "Parent Corp", some "John", some "Doe",
     some "1 Main St", some "Springfield", some "CA", some "94105",
     some "TC LLC", some "HQ"]]⟩

/-- The table `clean_data` produces from `extraTable`. -/
def extraCleaned : Table :=
  ⟨colOrder ++ ["Extra"],
   [[some "Tech Corp", some "Parent Corp", some "John", some "Doe",
     some "1 Main St", some "Springfield", some "CA", some "94105",
     some "TC LLC", some "HQ", some "x"]]⟩

/-- Path probe of an existing `.csv` file. -/
def srcOk : PathInfo := ⟨true, ".csv"⟩

/-- Path probe of a missing file. -/
def srcMissing : PathInfo := ⟨false, ".csv"⟩

/-! ## Character-level lemmas -/

theorem isWs_upChar (c : Char) : isWs (upChar c) = isWs c := by
  cases h : casePairs.find? (fun p => p.1 == c) with
  | none => simp [upChar, h]
  | some p =>
    have hc : p.1 = c := by simpa using List.find?_some h
    have hmem : p ∈ casePairs := List.mem_of_find?_eq_some h
    have h2 : upChar c = p.2 := by simp [upChar, h]
    rw [h2, ← hc]
    fin_cases hmem <;> rfl

theorem upChar_idem (c : Char) : upChar (upChar c) = upChar c := by
  cases h : casePairs.find? (fun p => p.1 == c) with
  | none => simp [upChar, h]
  | some p =>
    have hmem : p ∈ casePairs := List.mem_of_find?_eq_some h
    have h2 : upChar c = p.2 := by simp [upChar, h]
    rw [h2]
    fin_cases hmem <;> rfl

theorem isWs_of_digit {c : Char} (h : isDigitChar c = true) : isWs c = false := by
  have hm : c ∈ digitChars := by
    simpa [isDigitChar, List.elem_iff] using h
  fin_cases hm <;> rfl

/-! ## Strip lemmas -/

theorem stripList_eq (l : List Char) :
    stripList l = List.rdropWhile isWs (l.dropWhile isWs) := rfl

theorem dropWhile_stripList (l : List Char) :
    (stripList l).dropWhile isWs = stripList l := by
  rw [stripList_eq, List.dropWhile_eq_self_iff]
  intro hl
  have hpre := List.rdropWhile_prefix isWs (l.dropWhile isWs)
  have hlen : 0 < (l.dropWhile isWs).length := lt_of_lt_of_le hl hpre.length_le
  have hget := hpre.getElem hl
  have hnot := List.dropWhile_get_zero_not isWs l hlen
  simp only [List.get_eq_getElem] at hnot ⊢
  rw [hget]
  exact hnot

theorem stripList_idem (l : List Char) : stripList (stripList l) = stripList l := by
  conv_lhs => rw [stripList_eq, dropWhile_stripList, stripList_eq]
  rw [List.rdropWhile_idempotent]
  exact (stripList_eq l).symm

theorem stripList_eq_self {l : List Char} (h : ∀ c ∈ l, isWs c = false) :
    stripList l = l := by
  rw [stripList_eq]
  have h1 : l.dropWhile isWs = l := by
    rw [List.dropWhile_eq_self_iff]
    intro hl
    have hm := h _ (List.getElem_mem hl)
    simp [List.get_eq_getElem, hm]
  rw [h1, List.rdropWhile_eq_self_iff]
  intro hl
  have hm := h _ (List.getLast_mem hl)
  simp [hm]

theorem strip_idem (s : String) : strip (strip s) = strip s :=
  congrArg String.mk (stripList_idem s.toList)

theorem strip_of_no_ws {s : String} (h : ∀ c ∈ s.toList, isWs c = false) :
    strip s = s := by
  have h1 : stripList s.toList = s.toList := stripList_eq_self h
  calc strip s = String.mk (stripList s.toList) := rfl
    _ = String.mk s.toList := by rw [h1]
    _ = s := rfl

theorem stripList_map_upChar (l : List Char) :
    stripList (l.map upChar) = (stripList l).map upChar := by
  have hcomp : (isWs ∘ upChar) = isWs := funext isWs_upChar
  unfold stripList
  rw [List.dropWhile_map, hcomp, ← List.map_reverse, List.dropWhile_map, hcomp,
    ← List.map_reverse]

theorem strip_upStr {s : String} (h : strip s = s) : strip (upStr s) = upStr s := by
  have hl : stripList s.toList = s.toList := congrArg String.toList h
  calc strip (upStr s) = String.mk (stripList (s.toList.map upChar)) := rfl
    _ = String.mk ((stripList s.toList).map upChar) :=
        congrArg String.mk (stripList_map_upChar s.toList)
    _ = String.mk (s.toList.map upChar) := by rw [hl]
    _ = upStr s := rfl

theorem upStr_idem (s : String) : upStr (upStr s) = upStr s := by
  have h : (s.toList.map upChar).map upChar = s.toList.map upChar := by
    rw [List.map_map]
    exact List.map_congr_left (fun c _ => upChar_idem c)
  exact congrArg String.mk h

theorem upStr_ne_empty {s : String} (h : s ≠ "") : upStr s ≠ "" := by
  intro he
  apply h
  have h1 : s.toList.map upChar = [] := congrArg String.data he
  have h2 : s.toList = [] := List.map_eq_nil_iff.mp h1
  cases s with
  | mk data => cases h2; rfl

/-! ## Cell lemmas -/

theorem stripCell_some {v : Option String} {s : String} (h : stripCell v = some s) :
    strip s = s ∧ s ≠ "" := by
  cases v with
  | none => simp [stripCell] at h
  | some s0 =>
    by_cases h0 : strip s0 = ""
    · simp [stripCell, h0] at h
    · simp [stripCell, h0] at h
      subst h
      exact ⟨strip_idem s0, h0⟩

theorem stripCell_idem (v : Option String) : stripCell (stripCell v) = stripCell v := by
  cases hv : stripCell v with
  | none => simp [stripCell]
  | some s =>
    obtain ⟨h1, h2⟩ := stripCell_some hv
    simp [stripCell, h1, h2]

theorem stripCell_ne_empty (v : Option String) : stripCell v ≠ some "" := by
  intro h
  obtain ⟨_, h2⟩ := stripCell_some h
  exact h2 rfl

/-! ## Extraction lemmas -/

theorem fiveDigitsAt_spec {l d : List Char} (h : fiveDigitsAt l = some d) :
    d.length = 5 ∧ ∀ c ∈ d, isDigitChar c = true := by
  simp only [fiveDigitsAt] at h
  split at h
  · cases h
    rename_i hc
    simp only [Bool.and_eq_true, beq_iff_eq, List.all_eq_true] at hc
    exact ⟨hc.1, hc.2⟩
  · simp at h

theorem extract5List_spec {l d : List Char} (h : extract5List l = some d) :
    d.length = 5 ∧ ∀ c ∈ d, isDigitChar c = true := by
  induction l with
  | nil => simp [extract5List] at h
  | cons a t ih =>
    cases hf : fiveDigitsAt (a :: t) with
    | some d0 =>
      simp [extract5List, hf] at h
      cases h
      exact fiveDigitsAt_spec hf
    | none =>
      simp [extract5List, hf] at h
      exact ih h

theorem extract5List_of_digits {l : List Char} (h5 : l.length = 5)
    (hd : ∀ c ∈ l, isDigitChar c = true) : extract5List l = some l := by
  cases l with
  | nil => simp at h5
  | cons a t =>
    have htake : (a :: t).take 5 = a :: t := by
      conv_lhs => rw [← h5]
      exact List.take_length _
    have hc : (((a :: t).length == 5) && (a :: t).all isDigitChar) = true := by
      rw [Bool.and_eq_true, beq_iff_eq, List.all_eq_true]
      exact ⟨h5, hd⟩
    have hfive : fiveDigitsAt (a :: t) = some (a :: t) := by
      unfold fiveDigitsAt
      rw [htake, if_pos hc]
    simp [extract5List, hfive]

theorem extract5_fix {s d : String} (h : extract5 s = some d) :
    strip d = d ∧ d ≠ "" ∧ extract5 d = some d := by
  unfold extract5 at h
  cases hl : extract5List s.toList with
  | none => rw [hl] at h; simp at h
  | some l =>
    rw [hl] at h
    simp only [Option.map_some'] at h
    obtain ⟨hlen, hdig⟩ := extract5List_spec hl
    cases h
    refine ⟨strip_of_no_ws (fun c hc => isWs_of_digit (hdig c hc)), ?_, ?_⟩
    · intro he
      have h1 : l = [] := congrArg String.data he
      rw [h1] at hlen
      simp at hlen
    · unfold extract5
      rw [show (String.mk l).toList = l from rfl, extract5List_of_digits hlen hdig]
      rfl

/-! ## Composed cell lemmas -/

theorem cleanedCell_state (v : Option String) :
    cleanedCell "State" v = (stripCell v).map upStr := by
  unfold cleanedCell
  rw [if_pos rfl]

theorem cleanedCell_zip (v : Option String) :
    cleanedCell "ZIP Code" v = (stripCell v).bind extract5 := by
  unfold cleanedCell
  rw [if_neg (by decide), if_pos rfl]

theorem cleanedCell_other {c : String} (h1 : c ≠ "State") (h2 : c ≠ "ZIP Code")
    (v : Option String) : cleanedCell c v = stripCell v := by
  unfold cleanedCell
  rw [if_neg h1, if_neg h2]

theorem cleanedCell_idem (c : String) (v : Option String) :
    cleanedCell c (cleanedCell c v) = cleanedCell c v := by
  by_cases hs : c = "State"
  · subst hs
    rw [cleanedCell_state, cleanedCell_state]
    cases hv : stripCell v with
    | none => rfl
    | some s =>
      obtain ⟨h1, h2⟩ := stripCell_some hv
      have hstrip : strip (upStr s) = upStr s := strip_upStr h1
      have hne : upStr s ≠ "" := upStr_ne_empty h2
      simp [stripCell, hstrip, hne, upStr_idem]
  · by_cases hz : c = "ZIP Code"
    · subst hz
      rw [cleanedCell_zip, cleanedCell_zip]
      cases hv : stripCell v with
      | none => rfl
      | some s =>
        cases he : extract5 s with
        | none => simp [he, stripCell]
        | some d =>
          obtain ⟨hd1, hd2, hd3⟩ := extract5_fix he
          simp [he, stripCell, hd1, hd2, hd3]
    · rw [cleanedCell_other hs hz, cleanedCell_other hs hz, stripCell_idem]

theorem cleanedCell_ne_empty (c : String) (v : Option String) :
    cleanedCell c v ≠ some "" := by
  by_cases hs : c = "State"
  · subst hs
    rw [cleanedCell_state]
    cases hv : stripCell v with
    | none => simp
    | some s =>
      obtain ⟨_, h2⟩ := stripCell_some hv
      simp only [Option.map_some']
      intro h
      exact upStr_ne_empty h2 (by injection h)
  · by_cases hz : c = "ZIP Code"
    · subst hz
      rw [cleanedCell_zip]
      cases hv : stripCell v with
      | none => simp
      | some s =>
        intro h
        replace h : extract5 s = some "" := h
        obtain ⟨_, hne, _⟩ := extract5_fix h
        exact hne rfl
    · rw [cleanedCell_other hs hz]
      exact stripCell_ne_empty v

/-! ## zipWith lemmas -/

theorem zipWith_same_comp {α β : Type} (f g : α → β → β) (cs : List α) (r : List β) :
    List.zipWith f cs (List.zipWith g cs r) =
      List.zipWith (fun c v => f c (g c v)) cs r := by
  induction cs generalizing r with
  | nil => simp
  | cons a t ih =>
    cases r with
    | nil => simp
    | cons b rt => simp [ih]

theorem zipWith_congr_fun {α β γ : Type} {f g : α → β → γ}
    (h : ∀ a b, f a b = g a b) (l₁ : List α) (l₂ : List β) :
    List.zipWith f l₁ l₂ = List.zipWith g l₁ l₂ := by
  induction l₁ generalizing l₂ with
  | nil => simp
  | cons a t ih =>
    cases l₂ with
    | nil => simp
    | cons b rt => simp [h, ih]

theorem mem_zipWith_pair {α β γ : Type} {f : α → β → γ} {l₁ : List α} {l₂ : List β}
    {x : γ} (h : x ∈ List.zipWith f l₁ l₂) : ∃ a b, a ∈ l₁ ∧ b ∈ l₂ ∧ x = f a b := by
  induction l₁ generalizing l₂ with
  | nil => simp at h
  | cons a t ih =>
    cases l₂ with
    | nil => simp at h
    | cons b rt =>
      simp only [List.zipWith_cons_cons, List.mem_cons] at h
      rcases h with h | h
      · exact ⟨a, b, List.mem_cons_self _ _, List.mem_cons_self _ _, h⟩
      · obtain ⟨a2, b2, h1, h2, h3⟩ := ih h
        exact ⟨a2, b2, List.mem_cons_of_mem _ h1, List.mem_cons_of_mem _ h2, h3⟩

/-! ## clean_data characterization -/

theorem cleanedCell_comp (c : String) (v : Option String) :
    (if c = "ZIP Code" then
        (if c = "State" then (stripCell v).map upStr else stripCell v).bind extract5
      else if c = "State" then (stripCell v).map upStr else stripCell v) =
      cleanedCell c v := by
  by_cases hs : c = "State"
  · subst hs
    rw [if_neg (by decide), if_pos rfl, cleanedCell_state]
  · by_cases hz : c = "ZIP Code"
    · subst hz
      rw [if_pos rfl, if_neg hs, cleanedCell_zip]
    · rw [if_neg hz, if_neg hs, cleanedCell_other hs hz]

theorem clean_data_eq (t : Table) (hs : "State" ∈ t.cols) (hz : "ZIP Code" ∈ t.cols) :
    clean_data t =
      .ok ⟨t.cols, t.rows.map (fun r => List.zipWith cleanedCell t.cols r)⟩ := by
  unfold clean_data
  rw [if_pos hs, if_pos hz]
  have hrows : ((t.rows.map (fun r => r.map stripCell)).map
        (fun r => List.zipWith
          (fun c v => if c = "State" then v.map upStr else v) t.cols r)).map
        (fun r => List.zipWith
          (fun c v => if c = "ZIP Code" then v.bind extract5 else v) t.cols r)
      = t.rows.map (fun r => List.zipWith cleanedCell t.cols r) := by
    rw [List.map_map, List.map_map]
    apply List.map_congr_left
    intro r _
    show List.zipWith (fun c v => if c = "ZIP Code" then v.bind extract5 else v) t.cols
        (List.zipWith (fun c v => if c = "State" then v.map upStr else v) t.cols
          (r.map stripCell)) = _
    rw [List.zipWith_map_right, zipWith_same_comp]
    exact zipWith_congr_fun (fun c v => cleanedCell_comp c v) _ _
  exact congrArg Except.ok (congrArg (Table.mk t.cols) hrows)

theorem clean_data_cols {t t' : Table} (h : clean_data t = .ok t') : t'.cols = t.cols := by
  unfold clean_data at h
  split at h
  · split at h
    · cases h
      rfl
    · simp at h
  · simp at h

/-! ## Validation lemmas -/

theorem missing_columns_mem_iff (t : Table) (c : String) :
    (c ∈ missing_columns_of t) ↔ (c ∈ REQUIRED_COLUMNS ∧ c ∉ t.cols) := by
  unfold missing_columns_of
  rw [List.mem_filter]
  simp

theorem missing_columns_nil_iff (t : Table) :
    missing_columns_of t = [] ↔ ∀ c ∈ REQUIRED_COLUMNS, c ∈ t.cols := by
  unfold missing_columns_of
  rw [List.filter_eq_nil_iff]
  constructor
  · intro h c hc
    by_contra hn
    exact h c hc (by simpa using hn)
  · intro h c hc
    simp [h c hc]

theorem validate_columns_ok {t : Table} (h : validate_columns t = .ok ()) :
    ∀ c ∈ REQUIRED_COLUMNS, c ∈ t.cols := by
  unfold validate_columns at h
  split at h
  · rename_i hnil
    exact (missing_columns_nil_iff t).mp hnil
  · simp at h

theorem null_fields_mem (t : Table) (c : String) :
    ((c, nullCountOf t c) ∈ null_fields_of t) ↔
      (c ∈ required_non_null ∧ 0 < nullCountOf t c) := by
  unfold null_fields_of
  rw [List.mem_filter]
  constructor
  · rintro ⟨hm, hp⟩
    rw [List.mem_map] at hm
    obtain ⟨c2, hc2, heq⟩ := hm
    injection heq with e1 e2
    subst e1
    exact ⟨hc2, by simpa using hp⟩
  · rintro ⟨hc, hp⟩
    exact ⟨List.mem_map_of_mem _ hc, by simpa using hp⟩

theorem null_fields_nil (t : Table) :
    null_fields_of t = [] ↔ ∀ c ∈ required_non_null, nullCountOf t c = 0 := by
  unfold null_fields_of
  rw [List.filter_eq_nil_iff]
  constructor
  · intro h c hc
    have := h _ (List.mem_map_of_mem _ hc)
    simpa using this
  · intro h p hp
    rw [List.mem_map] at hp
    obtain ⟨c2, hc2, heq⟩ := hp
    subst heq
    simp [h c2 hc2]

theorem validate_data_types_ok {t : Table} {n : Nat}
    (h : validate_data_types t = .ok n) :
    ∀ c ∈ required_non_null, nullCountOf t c = 0 := by
  unfold validate_data_types at h
  split at h
  · split at h
    · rename_i hnil
      exact (null_fields_nil t).mp hnil
    · simp at h
  · simp at h

theorem rvt_ok {t t' : Table} (h : read_and_validate_table t = .ok t') :
    validate_columns t = .ok () ∧ (∃ n, validate_data_types t = .ok n) ∧
      clean_data t = .ok t' := by
  cases h1 : validate_columns t with
  | error e => simp [read_and_validate_table, h1] at h
  | ok u =>
    cases u
    cases h2 : validate_data_types t with
    | error e => simp [read_and_validate_table, h1, h2] at h
    | ok n =>
      simp only [read_and_validate_table, h1, h2] at h
      exact ⟨rfl, ⟨n, rfl⟩, h⟩

/-! ## Claim theorems -/

/-- Claim C3 (amended): `is_valid_domain` accepts `https://company.com`, rejects
    every URL whose parsed host contains a blocklisted domain as a substring
    (e.g. `https://sub.facebook.com`), and rejects every input whose URL parse
    raises; however an input such as `"not a url"` parses successfully with an
    empty host and is therefore accepted, not rejected. -/
theorem c3_domain_filter :
    is_valid_domain "https://company.com" = true ∧
    is_valid_domain "https://sub.facebook.com" = false ∧
    (∀ url nl, urlparseNetloc url = some nl →
      (∃ d ∈ excluded_domains, strContains (lowerStr nl) d = true) →
      is_valid_domain url = false) ∧
    (∀ url, urlparseNetloc url = none → is_valid_domain url = false) := by
  refine ⟨by decide, by decide, ?_, ?_⟩
  · intro url nl hp hex
    unfold is_valid_domain
    rw [hp]
    obtain ⟨d, hd, hc⟩ := hex
    have hany : excluded_domains.any (fun d => strContains (lowerStr nl) d) = true :=
      List.any_eq_true.mpr ⟨d, hd, hc⟩
    show (!(excluded_domains.any (fun d => strContains (lowerStr nl) d))) = false
    rw [hany]
    rfl
  · intro url hp
    unfold is_valid_domain
    rw [hp]

/-- Claim C3 counterexample: the claim says `IsAllowedDomain "not a url"` is
    false, but `urlparse` parses it with an empty netloc, no excluded domain
    occurs in the empty host, and the code returns true. -/
theorem c3_counterexample : is_valid_domain "not a url" = true := by decide

/-- Claim C3 witness. -/
theorem c3_witness :
    is_valid_domain "https://app.bloomberg.com" = false ∧
    is_valid_domain "http://[abc" = false :=
  ⟨c3_domain_filter.2.2.1 "https://app.bloomberg.com" "app.bloomberg.com" (by decide)
     ⟨"bloomberg.com", by decide, by decide⟩,
   c3_domain_filter.2.2.2 "http://[abc" (by decide)⟩

/-- The scanning loop returns the link of the first qualifying result. -/
theorem firstValidLink_eq_find (l : List OrganicResult) :
    firstValidLink l = (l.find? linkQualifies).bind (fun r => r.link) := by
  induction l with
  | nil => rfl
  | cons r rest ih =>
    cases hl : r.link with
    | none =>
      have hq : linkQualifies r = false := by simp [linkQualifies, hl]
      simp [firstValidLink, hl, List.find?_cons, hq, ih]
    | some s =>
      cases hq : (s != "" && is_valid_domain s) with
      | true =>
        have hq2 : linkQualifies r = true := by simp [linkQualifies, hl, hq]
        simp [firstValidLink, hl, hq, List.find?_cons, hq2]
      | false =>
        have hq2 : linkQualifies r = false := by simp [linkQualifies, hl, hq]
        simp [firstValidLink, hl, hq, List.find?_cons, hq2, ih]

/-- Claim C5: `search_company` returns `none` on a non-success response and,
    on a 200 response, the link of the first organic result whose link field
    is present, non-empty and passes the domain filter (`List.find?` returns
    `none` when no result qualifies — empty list, missing links or all
    blocklisted — making the result `none`). -/
theorem c5_search_company_first_valid (resp : SerperResponse) :
    (resp.status_code ≠ 200 → search_company resp = none) ∧
    (resp.status_code = 200 →
      search_company resp = (resp.organic.find? linkQualifies).bind (fun r => r.link)) := by
  constructor
  · intro h
    simp [search_company, h]
  · intro h
    simp [search_company, h, firstValidLink_eq_find]

/-- Claim C5 witness. -/
theorem c5_witness :
    search_company ⟨404, [⟨some "https://company.com"⟩]⟩ = none ∧
    search_company ⟨200, [⟨some "https://linkedin.com/x"⟩, ⟨some "https://company.com"⟩]⟩ =
      some "https://company.com" := by
  constructor
  · exact (c5_search_company_first_valid ⟨404, [⟨some "https://company.com"⟩]⟩).1 (by decide)
  · rw [(c5_search_company_first_valid
      ⟨200, [⟨some "https://linkedin.com/x"⟩, ⟨some "https://company.com"⟩]⟩).2 rfl]
    decide

/-- Claim C10: `validate_file_exists` checks the extension case-insensitively
    (any existing path whose lowercased suffix is `.csv` passes), and the
    existence check runs first, so a missing path fails with the not-found
    error regardless of its extension. -/
theorem c10_validate_file_exists (p : PathInfo) :
    (p.pathExists = true → lowerStr p.suffix = ".csv" →
      validate_file_exists p = .ok ()) ∧
    (p.pathExists = false → validate_file_exists p = .error .notFound) := by
  constructor
  · intro h1 h2
    simp [validate_file_exists, h1, h2]
  · intro h1
    simp [validate_file_exists, h1]

/-- Claim C10 witness. -/
theorem c10_witness :
    validate_file_exists ⟨true, ".CSV"⟩ = .ok () ∧
    validate_file_exists ⟨false, ".txt"⟩ = .error .notFound :=
  ⟨(c10_validate_file_exists ⟨true, ".CSV"⟩).1 rfl (by decide),
   (c10_validate_file_exists ⟨false, ".txt"⟩).2 rfl⟩

/-- Claim C7: `validate_columns` raises the schema error exactly when some
    required column is missing, the error payload lists exactly the missing
    required columns (all of them), and a table containing all ten required
    columns passes even with extra columns present (the embedded check is a
    pure function of the table, so it cannot mutate it). -/
theorem c7_validate_columns_missing (t : Table) :
    ((∃ e, validate_columns t = .error e) ↔ ∃ c ∈ REQUIRED_COLUMNS, c ∉ t.cols) ∧
    (∀ ms, validate_columns t = .error (.schemaError ms) →
      ∀ c, c ∈ ms ↔ (c ∈ REQUIRED_COLUMNS ∧ c ∉ t.cols)) ∧
    ((∀ c ∈ REQUIRED_COLUMNS, c ∈ t.cols) → validate_columns t = .ok ()) := by
  refine ⟨⟨?_, ?_⟩, ?_, ?_⟩
  · rintro ⟨e, he⟩
    unfold validate_columns at he
    split at he
    · simp at he
    · rename_i hne
      obtain ⟨c, hc⟩ := List.exists_mem_of_ne_nil _ hne
      obtain ⟨h1, h2⟩ := (missing_columns_mem_iff t c).mp hc
      exact ⟨c, h1, h2⟩
  · rintro ⟨c, hc, hn⟩
    have hmem : c ∈ missing_columns_of t := (missing_columns_mem_iff t c).mpr ⟨hc, hn⟩
    unfold validate_columns
    rw [if_neg (List.ne_nil_of_mem hmem)]
    exact ⟨_, rfl⟩
  · intro ms hms c
    unfold validate_columns at hms
    split at hms
    · simp at hms
    · injection hms with h
      injection h with h
      rw [← h]
      exact missing_columns_mem_iff t c
  · intro h
    unfold validate_columns
    rw [if_pos ((missing_columns_nil_iff t).mpr h)]

/-- Claim C7 witness. -/
theorem c7_witness :
    validate_columns extraTable = .ok () ∧
    (∃ e, validate_columns ⟨["City"], []⟩ = .error e) ∧
    "Company Name" ∈ missing_columns_of ⟨["City"], []⟩ := by
  refine ⟨(c7_validate_columns_missing extraTable).2.2 (by decide), ?_, by decide⟩
  exact (c7_validate_columns_missing ⟨["City"], []⟩).1.mpr ⟨"Company Name", by decide, by decide⟩

/-- Claim C6: `validate_data_types` (on a table having the five required
    columns) raises exactly when some required field has at least one null;
    the raised payload contains each required field paired with its null count
    precisely when that count is positive (all offenders enumerated); and when
    no required field has nulls it succeeds, returning only the count of
    badly formatted ZIP codes that is merely logged — a malformed ZIP never
    raises. -/
theorem c6_validate_data_types_nulls (t : Table)
    (hcols : ∀ c ∈ required_non_null, c ∈ t.cols) :
    ((∃ e, validate_data_types t = .error e) ↔
      ∃ c ∈ required_non_null, 0 < nullCountOf t c) ∧
    (∀ fs, validate_data_types t = .error (.contentError fs) →
      ∀ c ∈ required_non_null, ((c, nullCountOf t c) ∈ fs ↔ 0 < nullCountOf t c)) ∧
    ((∀ c ∈ required_non_null, nullCountOf t c = 0) →
      validate_data_types t = .ok (invalidZipCount t)) := by
  refine ⟨⟨?_, ?_⟩, ?_, ?_⟩
  · rintro ⟨e, he⟩
    unfold validate_data_types at he
    rw [dif_pos hcols] at he
    split at he
    · simp at he
    · rename_i hne
      obtain ⟨⟨c, n⟩, hp⟩ := List.exists_mem_of_ne_nil _ hne
      unfold null_fields_of at hp
      rw [List.mem_filter] at hp
      obtain ⟨hm, hpos⟩ := hp
      rw [List.mem_map] at hm
      obtain ⟨c2, hc2, heq⟩ := hm
      injection heq with e1 e2
      subst e1
      subst e2
      exact ⟨c2, hc2, by simpa using hpos⟩
  · rintro ⟨c, hc, hp⟩
    unfold validate_data_types
    rw [dif_pos hcols]
    have hne : null_fields_of t ≠ [] :=
      List.ne_nil_of_mem ((null_fields_mem t c).mpr ⟨hc, hp⟩)
    rw [if_neg hne]
    exact ⟨_, rfl⟩
  · intro fs hfs c hc
    unfold validate_data_types at hfs
    rw [dif_pos hcols] at hfs
    split at hfs
    · simp at hfs
    · injection hfs with h
      injection h with h
      rw [← h]
      constructor
      · intro hmem
        exact ((null_fields_mem t c).mp hmem).2
      · intro hp
        exact (null_fields_mem t c).mpr ⟨hc, hp⟩
  · intro h
    unfold validate_data_types
    rw [dif_pos hcols, if_pos ((null_fields_nil t).mpr h)]

/-- Claim C6 witness. -/
theorem c6_witness :
    validate_data_types badZipTable = .ok (invalidZipCount badZipTable) ∧
    invalidZipCount badZipTable = 1 :=
  ⟨(c6_validate_data_types_nulls badZipTable (by decide)).2.2 (by decide), by decide⟩

/-- Claim C4: for every table with `State` and `ZIP Code` columns,
    `clean_data` rewrites each cell by column: every cell is stripped of
    surrounding whitespace with empty results becoming null; the `State` cell
    is additionally uppercased (null stays null); the `ZIP Code` cell is
    re-derived as the leftmost run of five consecutive digits, null when no
    such run exists.  The anchors required by the claim:
    `"94105-1234" ↦ "94105"`, `"ABC" ↦ null`, `"941" ↦ null`,
    `"9410512345" ↦ "94105"`, `" ca " ↦ "CA"`, null state stays null. -/
theorem c4_clean_data_characterization :
    (∀ t : Table, "State" ∈ t.cols → "ZIP Code" ∈ t.cols →
      clean_data t =
        .ok ⟨t.cols, t.rows.map (fun r => List.zipWith cleanedCell t.cols r)⟩) ∧
    (∀ c : String, c ≠ "State" → c ≠ "ZIP Code" → ∀ v, cleanedCell c v = stripCell v) ∧
    (∀ s : String, stripCell (some s) = if strip s = "" then none else some (strip s)) ∧
    cleanedCell "ZIP Code" (some "94105-1234") = some "94105" ∧
    cleanedCell "ZIP Code" (some "ABC") = none ∧
    cleanedCell "ZIP Code" (some "941") = none ∧
    cleanedCell "ZIP Code" (some "9410512345") = some "94105" ∧
    cleanedCell "State" (some " ca ") = some "CA" ∧
    cleanedCell "State" none = none :=
  ⟨fun t hs hz => clean_data_eq t hs hz,
   fun _ h1 h2 v => cleanedCell_other h1 h2 v,
   fun _ => rfl,
   by decide, by decide, by decide, by decide, by decide, by decide⟩

/-- Claim C4 witness. -/
theorem c4_witness :
    clean_data sampleTable =
      .ok ⟨sampleTable.cols, sampleTable.rows.map
        (fun r => List.zipWith cleanedCell sampleTable.cols r)⟩ :=
  c4_clean_data_characterization.1 sampleTable (by decide) (by decide)

/-- Claim C8: `clean_data` is idempotent — running it again on its own output
    yields the same table (stated with `bind`, which also covers tables on
    which `clean_data` raises: the error propagates unchanged). -/
theorem c8_clean_data_idempotent (t : Table) :
    (clean_data t).bind clean_data = clean_data t := by
  cases h : clean_data t with
  | error e => rfl
  | ok t2 =>
    show clean_data t2 = Except.ok t2
    have hs : "State" ∈ t.cols := by
      by_contra hn
      unfold clean_data at h
      rw [if_neg hn] at h
      simp at h
    have hz : "ZIP Code" ∈ t.cols := by
      by_contra hn
      unfold clean_data at h
      rw [if_pos hs, if_neg hn] at h
      simp at h
    rw [clean_data_eq t hs hz] at h
    injection h with h
    subst h
    rw [clean_data_eq ⟨t.cols, t.rows.map (fun r => List.zipWith cleanedCell t.cols r)⟩ hs hz]
    have hrows : (t.rows.map (fun r => List.zipWith cleanedCell t.cols r)).map
        (fun r => List.zipWith cleanedCell t.cols r) =
        t.rows.map (fun r => List.zipWith cleanedCell t.cols r) := by
      rw [List.map_map]
      apply List.map_congr_left
      intro r _
      show List.zipWith cleanedCell t.cols (List.zipWith cleanedCell t.cols r) = _
      rw [zipWith_same_comp]
      exact zipWith_congr_fun (fun c v => cleanedCell_idem c v) _ _
    exact congrArg Except.ok (congrArg (Table.mk t.cols) hrows)

/-- Claim C2 (amended): a table accepted by the load pipeline had no nulls in
    the five required fields at validation time, and the stored cleaned table
    never contains an empty-string value (empties are converted to absent);
    post-clean non-nullness of the required fields is not guaranteed, because
    validation runs before cleaning and cleaning may introduce nulls (for
    whitespace-only values, and for ZIP values without a five-digit run). -/
theorem c2_cleaned_table_no_empty_strings (t t' : Table)
    (h : read_and_validate_table t = .ok t') :
    (∀ c ∈ required_non_null, nullCountOf t c = 0) ∧
    (∀ r ∈ t'.rows, ∀ v ∈ r, v ≠ some "") := by
  obtain ⟨h1, ⟨n, h2⟩, h3⟩ := rvt_ok h
  refine ⟨validate_data_types_ok h2, ?_⟩
  have hs : "State" ∈ t.cols := validate_columns_ok h1 "State" (by decide)
  have hz : "ZIP Code" ∈ t.cols := validate_columns_ok h1 "ZIP Code" (by decide)
  rw [clean_data_eq t hs hz] at h3
  injection h3 with h3
  intro r hr v hv
  have hr2 : r ∈ t.rows.map (fun r => List.zipWith cleanedCell t.cols r) := by
    rw [← h3] at hr
    exact hr
  rw [List.mem_map] at hr2
  obtain ⟨r0, _, hreq⟩ := hr2
  subst hreq
  obtain ⟨a, b, _, _, hveq⟩ := mem_zipWith_pair hv
  subst hveq
  exact cleanedCell_ne_empty a b

/-- Claim C2 counterexample: `badZipTable` has a non-null ZIP value `"ABC"` in
    every required field, so the load succeeds, yet the stored cleaned table
    has a null `ZIP Code` — the claimed post-clean non-null invariant fails. -/
theorem c2_counterexample :
    (read_and_validate_table badZipTable).toOption.map
      (fun c => c.rows.map (fun r => rowGet c.cols r "ZIP Code")) =
      some [some none] := by decide

/-- Claim C2 witness. -/
theorem c2_witness :
    (∀ c ∈ required_non_null, nullCountOf sampleTable c = 0) ∧
    (∀ r ∈ sampleCleaned.rows, ∀ v ∈ r, v ≠ some "") :=
  c2_cleaned_table_no_empty_strings sampleTable sampleCleaned (by decide)

/-- Claim C1 (amended): ToRecords/Persist raise the not-loaded error exactly
    when the handler holds no table; a failed `read_and_validate` leaves the
    stored state unchanged, so before any successful load they raise, but
    after a successful load a later failed reload leaves the previous table in
    place and they succeed on the stale table instead of raising. -/
theorem c1_failed_reload_keeps_previous_table (st : HandlerState) (src : PathInfo)
    (content : Table) :
    (∀ e, (read_and_validate st src content).2 = .error e →
      (read_and_validate st src content).1 = st) ∧
    (st.data = none → get_company_records st = .error .stateError ∧
      save_processed_data st = .error .stateError) ∧
    (∀ t, st.data = some t → exceptIsOk (get_company_records st) = true ∧
      exceptIsOk (save_processed_data st) = true) := by
  refine ⟨?_, ?_, ?_⟩
  · intro e he
    unfold read_and_validate at he ⊢
    cases h1 : validate_file_exists src with
    | error e1 => rfl
    | ok u =>
      cases u
      rw [h1] at he
      cases h2 : read_and_validate_table content with
      | error e2 => rfl
      | ok c =>
        rw [h2] at he
        simp at he
  · intro h
    unfold get_company_records save_processed_data
    rw [h]
    exact ⟨rfl, rfl⟩
  · intro t h
    unfold get_company_records save_processed_data
    rw [h]
    exact ⟨rfl, rfl⟩

/-- Claim C1 counterexample: load `sampleTable` successfully, then fail a
    reload on a missing file; the claim requires ToRecords to now raise
    StateError, but the handler still holds the first table and ToRecords
    succeeds. -/
theorem c1_counterexample :
    exceptIsOk (read_and_validate (read_and_validate ⟨none⟩ srcOk sampleTable).1
      srcMissing sampleTable).2 = false ∧
    exceptIsOk (get_company_records (read_and_validate (read_and_validate ⟨none⟩ srcOk
      sampleTable).1 srcMissing sampleTable).1) = true := by decide

/-- Claim C1 witness. -/
theorem c1_witness :
    (read_and_validate ⟨some sampleTable⟩ srcMissing sampleTable).1 =
      ⟨some sampleTable⟩ ∧
    get_company_records (⟨none⟩ : HandlerState) = .error .stateError ∧
    exceptIsOk (get_company_records ⟨some sampleTable⟩) = true := by
  refine ⟨?_, ?_, ?_⟩
  · exact (c1_failed_reload_keeps_previous_table ⟨some sampleTable⟩ srcMissing
      sampleTable).1 LoadError.notFound (by decide)
  · exact ((c1_failed_reload_keeps_previous_table ⟨none⟩ srcOk sampleTable).2.1 rfl).1
  · exact ((c1_failed_reload_keeps_previous_table ⟨some sampleTable⟩ srcOk
      sampleTable).2.2 sampleTable rfl).1

/-- Claim C9 (amended): a successful load stores the cleaned table, whose
    column list is exactly the loaded file's column list (extras included),
    and Persist writes that stored table with its own header — equal to the
    ten required columns only when the source had exactly those columns. -/
theorem c9_persist_writes_stored_columns (st : HandlerState) (src : PathInfo)
    (content c : Table)
    (h : (read_and_validate st src content).2 = .ok c) :
    c.cols = content.cols ∧
    save_processed_data (read_and_validate st src content).1 =
      .ok (content.cols, c.rows) := by
  unfold read_and_validate at h ⊢
  cases h1 : validate_file_exists src with
  | error e1 =>
    rw [h1] at h
    simp at h
  | ok u =>
    cases u
    rw [h1] at h
    cases h2 : read_and_validate_table content with
    | error e2 =>
      rw [h2] at h
      simp at h
    | ok c0 =>
      rw [h2] at h
      replace h : Except.ok c0 = Except.ok c := h
      injection h with h
      subst h
      obtain ⟨_, _, h3⟩ := rvt_ok h2
      have hcols := clean_data_cols h3
      refine ⟨hcols, ?_⟩
      show Except.ok (c0.cols, c0.rows) = Except.ok (content.cols, c0.rows)
      rw [hcols]

/-- Claim C9 counterexample: loading a file with an eleventh column `Extra`
    succeeds, and Persist then writes a header containing `Extra`, which is
    not one of the ten required column names — the written header is the
    stored table's column list, not exactly the required ten. -/
theorem c9_counterexample :
    (save_processed_data (read_and_validate ⟨none⟩ srcOk extraTable).1).toOption.map
      Prod.fst = some (colOrder ++ ["Extra"]) ∧
    "Extra" ∉ REQUIRED_COLUMNS := by decide

/-- Claim C9 witness. -/
theorem c9_witness :
    extraCleaned.cols = extraTable.cols ∧
    save_processed_data (read_and_validate ⟨none⟩ srcOk extraTable).1 =
      .ok (extraTable.cols, extraCleaned.rows) :=
  c9_persist_writes_stored_columns ⟨none⟩ srcOk extraTable extraCleaned (by decide)
